import Mathlib

/-!
Verification development for the staged specification-gating and decision
engine of the IDAES property-package workflow repository.  The repository
ships the workflow as natural-language skill documents; the engine itself
(SpecNormalizer, PropertyCatalog, CoverageGate, ApproachSelector,
MethodParameterMapper, ValidationOrchestrator, ProvenanceLedger) is described
by the design document but is not present as executable code, so every
component below is modelled from the spec, faithful to its words and to the
workflow documents.
-/

namespace PropPkg

/-- Modelled from the spec: phase kinds `{Liquid,Vapor,Solid}` (§3). -/
inductive PhaseKind
  | liquid
  | vapor
  | solid
  deriving DecidableEq, Repr

/-- Modelled from the spec: `Phase{id, kind}` (§3). -/
structure Phase where
  id : String
  kind : PhaseKind
  deriving DecidableEq, Repr

/-- Modelled from the spec: `Component{id, elemental_composition}` (§3). -/
structure Component where
  id : String
  elementalComposition : List (String × Nat)
  deriving DecidableEq, Repr

/-- Modelled from the spec: state-variable formulations; the five standard
IDAES formulations plus a custom (non-standard) formulation used by the
approach-selection rules. -/
inductive StateDefinition
  | FTPx
  | FpcTP
  | FcTP
  | FPhx
  | FcPh
  | custom (name : String)
  deriving DecidableEq, Repr

/-- A state formulation is standard when it is one of the five enumerated
IDAES formulations. -/
def StateDefinition.isStandard : StateDefinition → Bool
  | .custom _ => false
  | _ => true

/-- Modelled from the spec: `CoverageMode ∈ {minimum, comprehensive}` (§3). -/
inductive CoverageMode
  | minimum
  | comprehensive
  deriving DecidableEq, Repr

/-- Modelled from the spec: equilibrium form `∈ {fugacity, log_fugacity}`. -/
inductive EquilibriumForm
  | fugacity
  | log_fugacity
  deriving DecidableEq, Repr

/-- Modelled from the spec: equation-of-state kinds per phase
(`Ideal`, `PR`, `SRK`). -/
inductive EosKind
  | ideal
  | pengRobinson
  | srk
  deriving DecidableEq, Repr

/-- EOS families used by the fixed equilibrium-form compatibility table:
PR and SRK are the cubic family. -/
inductive EosFamily
  | idealFamily
  | cubicFamily
  deriving DecidableEq, Repr

/-- Family of an EOS kind: PR/SRK are cubic. -/
def EosKind.family : EosKind → EosFamily
  | .ideal => .idealFamily
  | .pengRobinson => .cubicFamily
  | .srk => .cubicFamily

/-- Modelled from the spec:
`Equilibrium{required, pairs, form}` (§3). -/
structure Equilibrium where
  required : Bool
  pairs : List (String × String)
  form : EquilibriumForm
  deriving DecidableEq, Repr

/-- Modelled from the spec: the normalized `Specification` (§3). -/
structure Specification where
  components : List Component
  phases : List Phase
  stateDefinition : StateDefinition
  coverageMode : CoverageMode
  requiredProperties : List String
  equilibrium : Equilibrium
  eosByPhase : List (String × EosKind)
  transportIncluded : Bool
  deriving DecidableEq, Repr

/-- Modelled from the spec: the error taxonomy of §7. -/
inductive SpecError
  | incompleteSpec (missingFields : List String)
  | invalidReference (danglingIds : List String)
  | equilibriumCoverageViolation (propertyName : String)
  | incompatibleEquilibriumConfig (phaseId : String) (form : EquilibriumForm)
  deriving DecidableEq, Repr

/-! ## SpecNormalizer (§4.1)

Modelled from the spec: raw key-value request (possibly partial); never
guesses high-impact fields (components, phases, state definition, EOS per
phase); coverage mode defaults to `minimum`; dangling phase references fail
fast with `InvalidReferenceError`. -/

/-- Modelled from the spec: a raw, possibly partial key-value request. -/
structure RawRequest where
  components : Option (List Component)
  phases : Option (List Phase)
  stateDefinition : Option StateDefinition
  coverageMode : Option CoverageMode
  requiredProperties : List String
  equilibrium : Option Equilibrium
  eosByPhase : List (String × EosKind)
  transportIncluded : Option Bool
  deriving DecidableEq, Repr

/-- Is the phase id declared in the phase list? -/
def phaseDeclared (phs : List Phase) (pid : String) : Bool :=
  phs.any fun ph => decide (ph.id = pid)

/-- The missing mandatory (high-impact) fields of a raw request: components,
phases, state definition, equilibrium block, and an EOS entry per declared
phase. -/
def RawRequest.missingMandatory (r : RawRequest) : List String :=
  (if r.components.getD [] = [] then ["components"] else []) ++
  (if r.phases.getD [] = [] then ["phases"] else []) ++
  (if r.stateDefinition.isNone then ["state_definition"] else []) ++
  (if r.equilibrium.isNone then ["equilibrium"] else []) ++
  (((r.phases.getD []).filter fun ph =>
      !(r.eosByPhase.any fun e => decide (e.1 = ph.id))).map
    fun ph => "eos." ++ ph.id)

/-- All phase ids referenced by a list of equilibrium phase pairs. -/
def pairRefs (pairs : List (String × String)) : List String :=
  pairs.foldr (fun pr acc => pr.1 :: pr.2 :: acc) []

/-- Phase ids referenced in `Equilibrium.pairs` or used as keys in
`EosByPhase` that are not declared in the phase list. -/
def danglingRefs (phs : List Phase) (eq : Equilibrium)
    (eos : List (String × EosKind)) : List String :=
  (pairRefs eq.pairs).filter (fun pid => !phaseDeclared phs pid) ++
  (eos.map (·.1)).filter (fun pid => !phaseDeclared phs pid)

/-- Modelled from the spec: SpecNormalizer (§4.1).  Flags missing mandatory
fields with `IncompleteSpecError{missing_fields}`, rejects dangling phase
references with `InvalidReferenceError`, and applies documented defaults to
low-impact fields (coverage mode defaults to `minimum`). -/
def normalize (r : RawRequest) : Except SpecError Specification :=
  if r.missingMandatory = [] then
    let phs := r.phases.getD []
    let eq := r.equilibrium.getD { required := false, pairs := [], form := .fugacity }
    let dangling := danglingRefs phs eq r.eosByPhase
    if dangling = [] then
      .ok { components := r.components.getD []
            phases := phs
            stateDefinition := r.stateDefinition.getD .FTPx
            coverageMode := r.coverageMode.getD .minimum
            requiredProperties := r.requiredProperties
            equilibrium := eq
            eosByPhase := r.eosByPhase
            transportIncluded := r.transportIncluded.getD false }
    else .error (.invalidReference dangling)
  else .error (.incompleteSpec r.missingMandatory)

/-! ## PropertyCatalog (§4.2)

Modelled from the spec: a static table mapping each property to its
applicability rule and profile membership, with a `Resolve` operation that
starts from the profile base set, unions in includes, subtracts excludes,
then subtracts properties whose applicability precondition is unmet —
logging each such removal as a Decision. -/

/-- Modelled from the spec: property applicability rules
`{always, multiphase_only, equilibrium_required}`. -/
inductive Applicability
  | always
  | multiphaseOnly
  | equilibriumRequired
  deriving DecidableEq, Repr

/-- Modelled from the spec: one catalog row: property name, applicability,
and membership in the minimum / comprehensive profiles. -/
structure CatalogEntry where
  name : String
  applicability : Applicability
  inMinimum : Bool
  inComprehensive : Bool
  deriving DecidableEq, Repr

/-- Does a catalog entry belong to the base set of the given coverage mode? -/
def CatalogEntry.inProfile (e : CatalogEntry) : CoverageMode → Bool
  | .minimum => e.inMinimum
  | .comprehensive => e.inComprehensive

/-- O(1)-style lookup by property name (first matching row). -/
def catalogLookup (cat : List CatalogEntry) (p : String) : Option CatalogEntry :=
  cat.find? fun e => decide (e.name = p)

/-- Applicability of a property; a property absent from the catalog (for
example a user-added custom property) is treated as always applicable. -/
def applicabilityOf (cat : List CatalogEntry) (p : String) : Applicability :=
  ((catalogLookup cat p).map (·.applicability)).getD .always

/-- Is the applicability precondition met by the Specification? -/
def Applicability.met (s : Specification) : Applicability → Bool
  | .always => true
  | .multiphaseOnly => decide (1 < s.phases.length)
  | .equilibriumRequired => s.equilibrium.required

/-- Modelled from the spec: the `Decision` audit record (§3). -/
structure Decision where
  decisionPoint : String
  selectedOption : String
  rationale : String
  rejectedAlternative : String
  riskNotes : List String
  deriving DecidableEq, Repr

/-- The Decision record logged when a property is removed from the resolved
set because its applicability precondition is not met. -/
def applicabilityDecision (p : String) : Decision :=
  { decisionPoint := "applicability_removal"
    selectedOption := "remove"
    rationale := p
    rejectedAlternative := "keep"
    riskNotes := [] }

/-- The profile's base property set for a coverage mode. -/
def profileBase (cat : List CatalogEntry) (mode : CoverageMode) : List String :=
  (cat.filter fun e => e.inProfile mode).map (·.name)

/-- Modelled from the spec: `PropertyCatalog.Resolve` (§4.2): base set ∪
includes, minus excludes, minus applicability-unmet properties; each removal
for unmet applicability is logged as a Decision. -/
def resolveProps (cat : List CatalogEntry) (s : Specification)
    (mode : CoverageMode) (inc exc : List String) :
    List String × List Decision :=
  let base := profileBase cat mode
  let unioned := base ++ inc.filter fun p => decide (p ∉ base)
  let afterExc := unioned.filter fun p => decide (p ∉ exc)
  let kept := afterExc.filter fun p => (applicabilityOf cat p).met s
  let removed := afterExc.filter fun p => !(applicabilityOf cat p).met s
  (kept, removed.map applicabilityDecision)

/-! ## ProvenanceLedger (§4.7) and parameter records -/

/-- Modelled from the spec: the scope a parameter applies to. -/
inductive AppliesTo
  | perComponent
  | perPhase
  | package
  deriving DecidableEq, Repr

/-- Modelled from the spec: confidence levels of a parameter record. -/
inductive Confidence
  | high
  | medium
  | low
  deriving DecidableEq, Repr

/-- Modelled from the spec: a `ParameterRecord` of the ProvenanceLedger (§3).
A placeholder record has no value, `confidence=low` and `source="TODO"`. -/
structure ParameterRecord where
  key : String
  appliesTo : AppliesTo
  value : Option String
  unit : String
  source : String
  retrievedOn : Nat
  confidence : Confidence
  deriving DecidableEq, Repr

/-- Modelled from the spec: the ProvenanceLedger, an append-only list of
parameter records. -/
abbrev Ledger := List ParameterRecord

/-- Does the ledger hold an actual (non-placeholder) value for a key? -/
def ledgerHasValue (l : Ledger) (k : String) : Bool :=
  l.any fun r => decide (r.key = k) && r.value.isSome

/-- The explicit placeholder record inserted for a missing parameter key:
no value, `confidence=low`, `source="TODO"`. -/
def placeholderRecord (k : String) : ParameterRecord :=
  { key := k
    appliesTo := .package
    value := none
    unit := ""
    source := "TODO"
    retrievedOn := 0
    confidence := .low }

/-! ## Method bindings and MethodParameterMapper (§4.5) -/

/-- Modelled from the spec: a `MethodBinding` (§3), extended with the
catalog facts the selector and mapper consult: whether the method is
available in the Generic (modular) framework and whether it is validated by
an official reference example. -/
structure MethodBinding where
  propertyName : String
  methodId : String
  requiredParameterKeys : List String
  genericCompatible : Bool
  validatedByReference : Bool
  deriving DecidableEq, Repr

/-- The candidate bindings for a property, in catalog declaration order. -/
def candidateBindings (bindings : List MethodBinding) (p : String) :
    List MethodBinding :=
  bindings.filter fun b => decide (b.propertyName = p)

/-- The required parameter keys of a binding that have no value in the
ledger. -/
def bindingMissingKeys (l : Ledger) (b : MethodBinding) : List String :=
  b.requiredParameterKeys.filter fun k => !ledgerHasValue l k

/-- Priority rank of a binding: reference-validated methods first, then
fewest missing parameters; ties are broken by declaration order. -/
def bindingRank (l : Ledger) (b : MethodBinding) : Nat × Nat :=
  ((if b.validatedByReference then 0 else 1), (bindingMissingKeys l b).length)

/-- Strict lexicographic comparison of binding ranks. -/
def rankLt (a b : Nat × Nat) : Bool :=
  decide (a.1 < b.1) || (decide (a.1 = b.1) && decide (a.2 < b.2))

/-- Modelled from the spec: the mapper's deterministic candidate selection
for one property: best rank, first declared on ties. -/
def selectBinding (l : Ledger) (bindings : List MethodBinding) (p : String) :
    Option MethodBinding :=
  (candidateBindings bindings p).foldl
    (fun best b =>
      match best with
      | none => some b
      | some c => if rankLt (bindingRank l b) (bindingRank l c) then some b else best)
    none

/-- Modelled from the spec: coverage statuses (§3). -/
inductive CoverageStatus
  | covered
  | missing
  | customImplementationNeeded
  deriving DecidableEq, Repr

/-- Modelled from the spec: a `CoverageEntry` (§3). -/
structure CoverageEntry where
  propertyName : String
  applicability : Applicability
  status : CoverageStatus
  deriving DecidableEq, Repr

/-- Modelled from the spec: MethodParameterMapper queried in "probe" mode by
the CoverageGate: determines the status of one property from method
availability and ledger parameter availability, leaving the ledger
untouched (no side effects). -/
def mapperProbe (bindings : List MethodBinding) (p : String) (l : Ledger) :
    CoverageStatus × Ledger :=
  match selectBinding l bindings p with
  | none => (.customImplementationNeeded, l)
  | some b =>
      (if (bindingMissingKeys l b) = [] then .covered else .missing, l)

/-! ## CoverageGate (§4.3) -/

/-- The equilibrium-tagged property names of the catalog. -/
def equilibriumTagged (cat : List CatalogEntry) : List String :=
  (cat.filter fun e => decide (e.applicability = .equilibriumRequired)).map (·.name)

/-- Modelled from the spec: the resolved property set of the gate.  Hard
rule: when `Equilibrium.required`, every `equilibrium_required`-tagged
property is forced into the resolved set regardless of mode and overrides. -/
def gateResolved (cat : List CatalogEntry) (s : Specification)
    (inc exc : List String) : List String :=
  let resolved := (resolveProps cat s s.coverageMode inc exc).1
  if s.equilibrium.required then
    resolved ++ (equilibriumTagged cat).filter fun p => decide (p ∉ resolved)
  else resolved

/-- Modelled from the spec: one CoverageGate run: for each resolved property
the status is determined by a probe-mode query to MethodParameterMapper,
threading the ledger through every query (which never mutates it). -/
def coverageGateRun (cat : List CatalogEntry) (bindings : List MethodBinding)
    (s : Specification) (inc exc : List String) (l : Ledger) :
    List CoverageEntry × Ledger :=
  (gateResolved cat s inc exc).foldl
    (fun acc p =>
      let st := mapperProbe bindings p acc.2
      (acc.1 ++ [{ propertyName := p
                   applicability := applicabilityOf cat p
                   status := st.1 }], st.2))
    ([], l)

/-- Modelled from the spec: attempting to mark a property for deferral.
When `Equilibrium.required` and the property is tagged
`equilibrium_required`, the attempt raises `EquilibriumCoverageViolation`;
otherwise the property is added to the deferral list. -/
def deferProperty (cat : List CatalogEntry) (s : Specification) (p : String)
    (deferrals : List String) : Except SpecError (List String) :=
  if s.equilibrium.required && decide (applicabilityOf cat p = .equilibriumRequired) then
    .error (.equilibriumCoverageViolation p)
  else .ok (p :: deferrals)

/-- Is a coverage entry mandatory (non-deferrable)?  Equilibrium-required
entries are mandatory whenever equilibrium is required; any other entry is
mandatory unless explicitly deferred. -/
def CoverageEntry.mandatory (s : Specification) (deferrals : List String)
    (e : CoverageEntry) : Bool :=
  if s.equilibrium.required && decide (e.applicability = .equilibriumRequired) then true
  else decide (e.propertyName ∉ deferrals)

/-- Modelled from the spec: the gate verdict: `Pass` iff no `missing`
entries remain among mandatory properties; comprehensive mode additionally
requires `covered` or an explicit user-accepted deferral for every entry. -/
def gatePass (s : Specification) (deferrals : List String)
    (table : List CoverageEntry) : Bool :=
  (table.all fun e =>
    if e.mandatory s deferrals then decide (e.status ≠ .missing) else true) &&
  (if s.coverageMode = .comprehensive then
    table.all fun e =>
      decide (e.status = .covered) || decide (e.propertyName ∈ deferrals)
  else true)

/-! ## Equilibrium-form compatibility (§4.5)

Modelled from the spec: a fixed compatibility table between EOS families and
equilibrium forms; cubic EOS admits only the `log_fugacity` family. -/

/-- The fixed EOS-family / equilibrium-form compatibility table: the cubic
family admits only `log_fugacity`; the ideal family admits both forms. -/
def formCompatible : EosFamily → EquilibriumForm → Bool
  | .cubicFamily, .log_fugacity => true
  | .cubicFamily, .fugacity => false
  | .idealFamily, _ => true

/-- Modelled from the spec: the mapper's equilibrium-form selection for one
phase.  A force-selected form incompatible with the phase's EOS family
raises `IncompatibleEquilibriumConfig`; with no forced choice the table's
preferred form for the family is selected. -/
def selectEquilibriumForm (phaseId : String) (eos : EosKind)
    (force : Option EquilibriumForm) : Except SpecError EquilibriumForm :=
  match force with
  | some f =>
      if formCompatible eos.family f then .ok f
      else .error (.incompatibleEquilibriumConfig phaseId f)
  | none =>
      match eos.family with
      | .cubicFamily => .ok .log_fugacity
      | .idealFamily => .ok .fugacity

/-- The distinct phase ids taking part in equilibrium pairs. -/
def equilibriumPhaseIds (s : Specification) : List String :=
  (pairRefs s.equilibrium.pairs).dedup

/-- A force-selected equilibrium form for a phase, when the user supplied
one. -/
def lookupForced (forced : List (String × EquilibriumForm)) (pid : String) :
    Option EquilibriumForm :=
  (forced.find? fun c => decide (c.1 = pid)).map (·.2)

/-- Equilibrium-form selection for one phase id of the specification: the
phase must have an EOS entry, then the compatibility table applies. -/
def mapEquilibriumForm (s : Specification)
    (forced : List (String × EquilibriumForm)) (pid : String) :
    Except SpecError EquilibriumForm :=
  match s.eosByPhase.find? fun e => decide (e.1 = pid) with
  | none => .error (.invalidReference [pid])
  | some e => selectEquilibriumForm pid e.2 (lookupForced forced pid)

/-- Equilibrium-form bindings for a list of phase ids, failing on the first
incompatibility. -/
def formsFor (s : Specification) (forced : List (String × EquilibriumForm)) :
    List String → Except SpecError (List (String × EquilibriumForm))
  | [] => .ok []
  | pid :: rest =>
      match mapEquilibriumForm s forced pid with
      | .error e => .error e
      | .ok f =>
          match formsFor s forced rest with
          | .error e => .error e
          | .ok l => .ok ((pid, f) :: l)

/-- Modelled from the spec: MethodParameterMapper's equilibrium-form binding
pass: one binding per equilibrium phase, rejected with
`IncompatibleEquilibriumConfig` on any EOS-family mismatch. -/
def mapperEquilibriumForms (s : Specification)
    (forced : List (String × EquilibriumForm)) :
    Except SpecError (List (String × EquilibriumForm)) :=
  if s.equilibrium.required then formsFor s forced (equilibriumPhaseIds s)
  else .ok []

/-! ## Parameter-completeness matrix and placeholders (§4.5, §4.7) -/

/-- One row of the parameter-completeness matrix. -/
structure CompletenessRow where
  propertyName : String
  methodId : String
  presentKeys : List String
  missingKeys : List String
  deriving DecidableEq, Repr

/-- Modelled from the spec: the parameter-completeness matrix, built by
cross-referencing each selected binding's required keys against the
ProvenanceLedger; absent keys are reported as missing, never fabricated. -/
def completenessMatrix (l : Ledger) (bindings : List MethodBinding)
    (resolved : List String) : List CompletenessRow :=
  resolved.filterMap fun p =>
    (selectBinding l bindings p).map fun b =>
      { propertyName := p
        methodId := b.methodId
        presentKeys := b.requiredParameterKeys.filter fun k => ledgerHasValue l k
        missingKeys := bindingMissingKeys l b }

/-- All missing keys of a completeness matrix. -/
def matrixMissingKeys (rows : List CompletenessRow) : List String :=
  rows.foldr (fun r acc => r.missingKeys ++ acc) []

/-- Modelled from the spec: when a resolution policy is active the mapper
inserts an explicit `confidence=low`, `source="TODO"` placeholder record for
every missing key; it never fabricates a value.  Returns the extended
ledger and the inserted records. -/
def insertPlaceholders (l : Ledger) (rows : List CompletenessRow) :
    Ledger × List ParameterRecord :=
  let inserted := (matrixMissingKeys rows).map placeholderRecord
  (l ++ inserted, inserted)

/-- Modelled from the spec: the delivery report (§6) lists every low-
confidence placeholder explicitly, next to the decision history. -/
structure DeliveryReport where
  placeholders : List ParameterRecord
  decisions : List Decision
  deriving DecidableEq, Repr

/-- Build the delivery report from the records the mapper inserted. -/
def deliveryReport (inserted : List ParameterRecord)
    (decisions : List Decision) : DeliveryReport :=
  { placeholders := inserted.filter fun r => decide (r.confidence = .low)
    decisions := decisions }

/-! ## ApproachSelector (§4.4) -/

/-- Modelled from the spec: the two mutually exclusive implementation
strategies. -/
inductive Approach
  | generic
  | classBased
  deriving DecidableEq, Repr

/-- The name of the alternative approach. -/
def Approach.other : Approach → Approach
  | .generic => .classBased
  | .classBased => .generic

/-- Printable name of an approach. -/
def Approach.describe : Approach → String
  | .generic => "generic"
  | .classBased => "class_based"

/-- Modelled from the spec: the decision inputs of the ApproachSelector:
the specification, the method-binding catalog, the resolved property set,
whether a custom/non-library correlation is required, and the optional
explicit user override with its hard-incompatibility flag. -/
structure SelectorContext where
  spec : Specification
  bindings : List MethodBinding
  resolved : List String
  customCorrelationRequired : Bool
  override : Option Approach
  overrideHardIncompatible : Bool
  deriving DecidableEq, Repr

/-- Does a property lack any Generic-compatible method binding? -/
def lacksGenericMethod (bindings : List MethodBinding) (p : String) : Bool :=
  !(bindings.any fun b => decide (b.propertyName = p) && b.genericCompatible)

/-- Rule 2's condition: some resolved property lacks a Generic-compatible
method, or the state formulation is non-standard, or a custom/non-library
correlation is required. -/
def classBasedNeeded (ctx : SelectorContext) : Bool :=
  (ctx.resolved.any (lacksGenericMethod ctx.bindings)) ||
  !ctx.spec.stateDefinition.isStandard ||
  ctx.customCorrelationRequired

/-- Rule 2/3's recommendation, ignoring any user override. -/
def recommendedApproach (ctx : SelectorContext) : Approach :=
  if classBasedNeeded ctx then .classBased else .generic

/-- Modelled from the spec: ApproachSelector (§4.4), first match wins:
(1) an explicit user override with no hard incompatibility is honored, with
risk notes when it conflicts with the recommendation; (2) otherwise rule 2's
condition forces `ClassBased`; (3) otherwise `Generic`.  Output is the
selected approach with its Decision record. -/
def selectApproach (ctx : SelectorContext) : Approach × Decision :=
  match ctx.override with
  | some a =>
      if ctx.overrideHardIncompatible then
        let r := recommendedApproach ctx
        (r, { decisionPoint := "approach"
              selectedOption := r.describe
              rationale := "override_hard_incompatible"
              rejectedAlternative := r.other.describe
              riskNotes := [] })
      else
        (a, { decisionPoint := "approach"
              selectedOption := a.describe
              rationale := "user_override"
              rejectedAlternative := a.other.describe
              riskNotes :=
                if a = recommendedApproach ctx then []
                else ["conflicts_with_recommendation"] })
  | none =>
      let r := recommendedApproach ctx
      (r, { decisionPoint := "approach"
            selectedOption := r.describe
            rationale :=
              if classBasedNeeded ctx then "class_based_condition" else "default_generic"
            rejectedAlternative := r.other.describe
            riskNotes := [] })

/-! ## ValidationOrchestrator (§4.6)

Modelled from the spec: a state machine `{Planning, Probing, Blocked,
Ready}` running a fixed checklist and a strictly bounded repair loop; every
terminal `Blocked` outcome carries an explicit enumerated reason. -/

/-- Modelled from the spec: the fixed checklist (§4.6). -/
inductive CheckName
  | constructionFeasibility
  | unitConsistency
  | degreesOfFreedom
  | parameterCompleteness
  | equilibriumTriad
  deriving DecidableEq, Repr

/-- Printable name of a checklist entry. -/
def CheckName.describe : CheckName → String
  | .constructionFeasibility => "construction_feasibility"
  | .unitConsistency => "unit_consistency"
  | .degreesOfFreedom => "degrees_of_freedom"
  | .parameterCompleteness => "parameter_completeness"
  | .equilibriumTriad => "equilibrium_triad"

/-- The checklist in its fixed order. -/
def allChecks : List CheckName :=
  [.constructionFeasibility, .unitConsistency, .degreesOfFreedom,
   .parameterCompleteness, .equilibriumTriad]

/-- Modelled from the spec: the enumerated terminal `Blocked` reasons; there
is no generic failure constructor. -/
inductive BlockReason
  | constructionInfeasible
  | unitsInconsistent
  | dofMismatch
  | equilibriumTriadInconsistent
  | repairBudgetExhausted (unresolved : List String)
  | cancelled
  deriving DecidableEq, Repr

/-- Modelled from the spec: the orchestrator states (§4.6). -/
inductive OrchState
  | planning
  | probing
  | blocked (reason : BlockReason)
  | ready
  deriving DecidableEq, Repr

/-- Modelled from the spec: the probing environment: the specification, the
static catalogs, the ledger, the external knowledge collaborators, the
externally supplied structural check outcomes, and the user-accepted
deferrals. -/
structure ProbeEnv where
  spec : Specification
  propCat : List CatalogEntry
  bindings : List MethodBinding
  ledger : Ledger
  collab : List (String × ParameterRecord)
  constructionOk : Bool
  unitsOk : Bool
  dofOk : Bool
  deferrals : List String
  deriving DecidableEq, Repr

/-- The coverage table computed by the gate for a probing environment, with
the user's explicit required properties as includes. -/
def envTable (env : ProbeEnv) : List CoverageEntry :=
  (coverageGateRun env.propCat env.bindings env.spec
    env.spec.requiredProperties [] env.ledger).1

/-- Equilibrium-triad consistency: when equilibrium is required there is at
least one pair and every phase taking part has an EOS entry whose family is
compatible with the chosen equilibrium form. -/
def equilibriumTriadOk (s : Specification) : Bool :=
  if s.equilibrium.required then
    decide (s.equilibrium.pairs ≠ []) &&
    ((pairRefs s.equilibrium.pairs).all fun pid =>
      s.eosByPhase.any fun e =>
        decide (e.1 = pid) && formCompatible e.2.family s.equilibrium.form)
  else true

/-- Evaluate one checklist entry against the probing environment. -/
def runCheck (env : ProbeEnv) : CheckName → Bool
  | .constructionFeasibility => env.constructionOk
  | .unitConsistency => env.unitsOk
  | .degreesOfFreedom => env.dofOk
  | .parameterCompleteness => gatePass env.spec env.deferrals (envTable env)
  | .equilibriumTriad => equilibriumTriadOk env.spec

/-- The checklist entries failing in the environment, in checklist order. -/
def failingChecks (env : ProbeEnv) : List CheckName :=
  allChecks.filter fun c => !runCheck env c

/-- Modelled from the spec: which checklist entries are auto-repairable by
re-invoking MethodParameterMapper with an expanded search; only parameter
completeness is, the structural checks are terminal. -/
def CheckName.autoRepairable : CheckName → Bool
  | .parameterCompleteness => true
  | _ => false

/-- The enumerated terminal reason for a failing checklist entry. -/
def CheckName.terminalReason : CheckName → BlockReason
  | .constructionFeasibility => .constructionInfeasible
  | .unitConsistency => .unitsInconsistent
  | .degreesOfFreedom => .dofMismatch
  | .equilibriumTriad => .equilibriumTriadInconsistent
  | .parameterCompleteness => .repairBudgetExhausted ["parameter_completeness"]

/-- The explicit reason of a `Blocked` transition for a non-empty failing
list: the first non-repairable entry's enumerated reason, or budget
exhaustion listing the unresolved entries. -/
def terminalReason (failing : List CheckName) : BlockReason :=
  match failing.find? fun c => !c.autoRepairable with
  | some c => c.terminalReason
  | none => .repairBudgetExhausted (failing.map CheckName.describe)

/-- External-collaborator lookup of one parameter key. -/
def lookupCollab (collab : List (String × ParameterRecord)) (k : String) :
    Option ParameterRecord :=
  (collab.find? fun c => decide (c.1 = k)).map (·.2)

/-- The missing parameter keys of the environment's resolved properties
under their currently selected bindings. -/
def envMissingKeys (env : ProbeEnv) : List String :=
  matrixMissingKeys
    (completenessMatrix env.ledger env.bindings
      (gateResolved env.propCat env.spec env.spec.requiredProperties []))

/-- Modelled from the spec: one repair iteration: re-invoke the mapper with
an expanded search — resolve each missing key through the knowledge
collaborators, inserting the found record, or an explicit placeholder when
no collaborator resolves it (a value is never fabricated). -/
def repairStep (env : ProbeEnv) : ProbeEnv :=
  let found := (envMissingKeys env).map fun k =>
    match lookupCollab env.collab k with
    | some r => r
    | none => placeholderRecord k
  { env with ledger := env.ledger ++ found }

/-- Modelled from the spec: the bounded probing/repair loop.  The fuel is
the configured maximum number of repair iterations; `used` counts the
repair iterations performed.  All-pass ⇒ `Ready`; a non-repairable failure
⇒ `Blocked` with its enumerated reason; exhausting the budget with
repairable failures still unresolved ⇒ `Blocked (RepairBudgetExhausted)`. -/
def probeLoop (env : ProbeEnv) : Nat → Nat → OrchState × ProbeEnv × Nat
  | 0, used =>
      let failing := failingChecks env
      if failing = [] then (.ready, env, used)
      else if failing.all CheckName.autoRepairable then
        (.blocked (.repairBudgetExhausted (failing.map CheckName.describe)), env, used)
      else (.blocked (terminalReason failing), env, used)
  | fuel + 1, used =>
      let failing := failingChecks env
      if failing = [] then (.ready, env, used)
      else if failing.all CheckName.autoRepairable then
        probeLoop (repairStep env) fuel (used + 1)
      else (.blocked (terminalReason failing), env, used)

/-- Modelled from the spec: the orchestrator configuration; the repair
budget is a configurable parameter. -/
structure OrchConfig where
  maxRepairIterations : Nat
  deriving DecidableEq, Repr

/-- Modelled from the spec: ValidationOrchestrator (§4.6): `Planning →
Probing` once CoverageGate and ApproachSelector have produced their
outputs, then the bounded repair loop until `Ready` or `Blocked`. -/
def orchestrate (cfg : OrchConfig) (env : ProbeEnv) : OrchState × ProbeEnv × Nat :=
  probeLoop env cfg.maxRepairIterations 0

/-! ## Validation/test generation (marker policy)

Modelled from the spec and the validation-and-testing document: every
generated test carries exactly one primary pytest marker from the fixed
four-marker set; property-package smoke tests default to `component` unless
strictly unit-level and solver-free. -/

/-- The four primary pytest markers of the marker policy. -/
inductive PytestMarker
  | unit
  | component
  | integration
  | performance
  deriving DecidableEq, Repr

/-- Kinds of generated tests: package smoke tests and the optional
unit-model integration test. -/
inductive TestKind
  | smoke
  | integrationCheck
  deriving DecidableEq, Repr

/-- A generated test with its primary-marker list. -/
structure GeneratedTest where
  name : String
  kind : TestKind
  unitLevel : Bool
  solverFree : Bool
  markers : List PytestMarker
  deriving DecidableEq, Repr

/-- The marker policy for smoke tests: `component` unless the test is
strictly unit-level and solver-free. -/
def smokeMarker (unitLevel solverFree : Bool) : PytestMarker :=
  if unitLevel && solverFree then .unit else .component

/-- Build one smoke test with its single primary marker. -/
def mkSmokeTest (name : String) (unitLevel solverFree : Bool) : GeneratedTest :=
  { name := name
    kind := .smoke
    unitLevel := unitLevel
    solverFree := solverFree
    markers := [smokeMarker unitLevel solverFree] }

/-- Modelled from the spec: the validation/test-generation stage: the
minimum test set, the comprehensive additions, and the optional unit-model
integration test. -/
def generateTests (s : Specification) (includeIntegration : Bool) :
    List GeneratedTest :=
  [ mkSmokeTest "test_parameter_block_build" true true,
    mkSmokeTest "test_state_block_build" true true,
    mkSmokeTest "test_metadata_state_vars" true true,
    mkSmokeTest "test_units_consistent" true true,
    mkSmokeTest "test_fix_state_zero_dof" false true,
    mkSmokeTest "test_initialization" false false,
    mkSmokeTest "test_solve_termination" false false ] ++
  (if s.coverageMode = .comprehensive then
    [ mkSmokeTest "test_property_value_ranges" false false ] ++
    (if s.equilibrium.required then
      [ mkSmokeTest "test_equilibrium_checks" false false ] else []) ++
    (if s.transportIncluded then
      [ mkSmokeTest "test_transport_properties" false false ] else [])
  else []) ++
  (if includeIntegration then
    [{ name := "test_unit_model_integration"
       kind := .integrationCheck
       unitLevel := false
       solverFree := false
       markers := [.integration] }]
  else [])

/-- Decidable form of the marker policy for one generated test: exactly one
primary marker, and smoke tests carry the default-component rule's
marker. -/
def markerPolicyOk (t : GeneratedTest) : Bool :=
  decide (t.markers.length = 1) &&
  (if t.kind = .smoke then
    decide (t.markers = [smokeMarker t.unitLevel t.solverFree])
  else true)

/-! ## Pipeline assembly (§2, §6) -/

/-- The pipeline stages, recorded in a run trace. -/
inductive Stage
  | normalization
  | coverageGate
  | approachSelection
  | methodMapping
  | validation
  deriving DecidableEq, Repr

/-- Modelled from the spec: the `BuildPlan` hand-off (§6). -/
structure BuildPlan where
  approach : Approach
  coverageTable : List CoverageEntry
  methodBindings : List (String × EquilibriumForm)
  parameterGaps : List String
  validationState : OrchState
  deriving DecidableEq, Repr

/-- Modelled from the spec: the sequential pipeline (§2): normalization,
coverage gate, approach selection, method/parameter mapping, validation.
A normalization or reference error aborts the run immediately: no later
stage runs and no partial BuildPlan is emitted.  The returned trace lists
the stages that actually ran. -/
def runPipeline (propCat : List CatalogEntry) (bindings : List MethodBinding)
    (collab : List (String × ParameterRecord)) (cfg : OrchConfig)
    (checksOk : Bool × Bool × Bool) (r : RawRequest) (l : Ledger) :
    Except SpecError BuildPlan × List Stage :=
  match normalize r with
  | .error e => (.error e, [.normalization])
  | .ok s =>
      let gate := coverageGateRun propCat bindings s s.requiredProperties [] l
      let sel := selectApproach
        { spec := s
          bindings := bindings
          resolved := gateResolved propCat s s.requiredProperties []
          customCorrelationRequired := false
          override := none
          overrideHardIncompatible := false }
      match mapperEquilibriumForms s [] with
      | .error e =>
          (.error e,
           [.normalization, .coverageGate, .approachSelection, .methodMapping])
      | .ok forms =>
          let env : ProbeEnv :=
            { spec := s
              propCat := propCat
              bindings := bindings
              ledger := gate.2
              collab := collab
              constructionOk := checksOk.1
              unitsOk := checksOk.2.1
              dofOk := checksOk.2.2
              deferrals := [] }
          let result := orchestrate cfg env
          (.ok { approach := sel.1
                 coverageTable := envTable result.2.1
                 methodBindings := forms
                 parameterGaps := envMissingKeys result.2.1
                 validationState := result.1 },
           [.normalization, .coverageGate, .approachSelection,
            .methodMapping, .validation])

/-! ## Concrete fixtures

A benzene–toluene VLE configuration in the style of the workflow's
scenario B: two phases, PR EOS on both, equilibrium required. -/

/-- Two-phase Liq/Vap fixture. -/
def demoPhases : List Phase :=
  [{ id := "Liq", kind := .liquid }, { id := "Vap", kind := .vapor }]

/-- Benzene–toluene component fixture. -/
def demoComponents : List Component :=
  [{ id := "benzene", elementalComposition := [("C", 6), ("H", 6)] },
   { id := "toluene", elementalComposition := [("C", 7), ("H", 8)] }]

/-- Equilibrium fixture: VLE pair with the log-fugacity form. -/
def demoEquilibrium : Equilibrium :=
  { required := true, pairs := [("Vap", "Liq")], form := .log_fugacity }

/-- PR EOS on both phases. -/
def demoEos : List (String × EosKind) :=
  [("Liq", .pengRobinson), ("Vap", .pengRobinson)]

/-- The normalized fixture specification. -/
def demoSpec : Specification :=
  { components := demoComponents
    phases := demoPhases
    stateDefinition := .FTPx
    coverageMode := .minimum
    requiredProperties := []
    equilibrium := demoEquilibrium
    eosByPhase := demoEos
    transportIncluded := false }

/-- A small property catalog fixture mirroring the required-properties
policy: always-applicable state properties, an equilibrium-required
fugacity property and a multiphase-only density property. -/
def demoCatalog : List CatalogEntry :=
  [ { name := "flow_mol", applicability := .always,
      inMinimum := true, inComprehensive := true },
    { name := "temperature", applicability := .always,
      inMinimum := true, inComprehensive := true },
    { name := "enth_mol", applicability := .always,
      inMinimum := false, inComprehensive := true },
    { name := "fug_phase_comp", applicability := .equilibriumRequired,
      inMinimum := false, inComprehensive := true },
    { name := "dens_mol_phase", applicability := .multiphaseOnly,
      inMinimum := false, inComprehensive := true } ]

/-- A method-binding catalog fixture in the style of the methods catalog. -/
def demoBindings : List MethodBinding :=
  [ { propertyName := "flow_mol", methodId := "state_def",
      requiredParameterKeys := [], genericCompatible := true,
      validatedByReference := true },
    { propertyName := "temperature", methodId := "state_def",
      requiredParameterKeys := [], genericCompatible := true,
      validatedByReference := true },
    { propertyName := "enth_mol", methodId := "RPP4",
      requiredParameterKeys := ["cp_mol_ig_comp_coeff"],
      genericCompatible := true, validatedByReference := true },
    { propertyName := "fug_phase_comp", methodId := "CubicComplementarityVLE",
      requiredParameterKeys := ["PR_kappa"],
      genericCompatible := true, validatedByReference := true },
    { propertyName := "dens_mol_phase", methodId := "Perrys",
      requiredParameterKeys := ["dens_mol_liq_comp_coeff"],
      genericCompatible := true, validatedByReference := false } ]

/-- A ledger fixture holding one high-confidence parameter. -/
def demoLedger : Ledger :=
  [ { key := "PR_kappa", appliesTo := .package, value := some "0.0",
      unit := "dimensionless", source := "idaes_examples", retrievedOn := 1,
      confidence := .high } ]

/-- A raw request with an explicitly empty component list. -/
def demoRawEmpty : RawRequest :=
  { components := some []
    phases := some demoPhases
    stateDefinition := some .FTPx
    coverageMode := none
    requiredProperties := []
    equilibrium := some demoEquilibrium
    eosByPhase := demoEos
    transportIncluded := none }

/-- A complete raw request whose equilibrium pair references the undeclared
phase `Sol`. -/
def demoRawDangling : RawRequest :=
  { components := some demoComponents
    phases := some demoPhases
    stateDefinition := some .FTPx
    coverageMode := none
    requiredProperties := []
    equilibrium := some { required := true, pairs := [("Vap", "Sol")], form := .fugacity }
    eosByPhase := demoEos
    transportIncluded := none }

/-- A probing-environment fixture built on the demo specification. -/
def demoEnv : ProbeEnv :=
  { spec := demoSpec
    propCat := demoCatalog
    bindings := demoBindings
    ledger := demoLedger
    collab := []
    constructionOk := true
    unitsOk := true
    dofOk := true
    deferrals := [] }

/-- A selector-context fixture: the user forces the class-based approach
although the demo configuration recommends Generic. -/
def demoOverrideCtx : SelectorContext :=
  { spec := demoSpec
    bindings := demoBindings
    resolved := ["flow_mol", "temperature", "fug_phase_comp"]
    customCorrelationRequired := false
    override := some .classBased
    overrideHardIncompatible := false }

/-- A specification fixture that additionally requires `enth_mol`, whose
method needs a parameter absent from the demo ledger. -/
def demoGapSpec : Specification :=
  { demoSpec with requiredProperties := ["enth_mol"] }

/-- A probing environment with an unresolvable parameter gap: no
collaborator can supply `cp_mol_ig_comp_coeff`, so the repair budget runs
out. -/
def demoGapEnv : ProbeEnv :=
  { demoEnv with spec := demoGapSpec }

/-! ## Helper lemmas -/

/-- An empty component list puts `components` among the missing mandatory
fields. -/
theorem missingMandatory_of_no_components (r : RawRequest)
    (h : r.components.getD [] = []) : "components" ∈ r.missingMandatory := by
  simp [RawRequest.missingMandatory, h]

/-- An empty phase list puts `phases` among the missing mandatory fields. -/
theorem missingMandatory_of_no_phases (r : RawRequest)
    (h : r.phases.getD [] = []) : "phases" ∈ r.missingMandatory := by
  simp [RawRequest.missingMandatory, h]

/-- With a missing mandatory field, normalization returns
`IncompleteSpecError` listing the missing fields. -/
theorem normalize_incomplete (r : RawRequest) (h : r.missingMandatory ≠ []) :
    normalize r = .error (.incompleteSpec r.missingMandatory) := by
  simp [normalize, h]

/-! ## C5 -/

/-- C5: a raw request normalizing to zero components or zero phases makes
the pipeline return `IncompleteSpecError` listing the missing mandatory
fields; the run trace stops at normalization, so CoverageGate is never
invoked and no BuildPlan is emitted. -/
theorem pipeline_rejects_empty_components_or_phases
    (propCat : List CatalogEntry) (bindings : List MethodBinding)
    (collab : List (String × ParameterRecord)) (cfg : OrchConfig)
    (checksOk : Bool × Bool × Bool) (r : RawRequest) (l : Ledger)
    (h : r.components.getD [] = [] ∨ r.phases.getD [] = []) :
    ∃ fields,
      (runPipeline propCat bindings collab cfg checksOk r l).1 =
        .error (.incompleteSpec fields) ∧
      (r.components.getD [] = [] → "components" ∈ fields) ∧
      (r.phases.getD [] = [] → "phases" ∈ fields) ∧
      (runPipeline propCat bindings collab cfg checksOk r l).2 =
        [.normalization] ∧
      Stage.coverageGate ∉ (runPipeline propCat bindings collab cfg checksOk r l).2 := by
  have hne : r.missingMandatory ≠ [] := by
    rcases h with h | h
    · exact List.ne_nil_of_mem (missingMandatory_of_no_components r h)
    · exact List.ne_nil_of_mem (missingMandatory_of_no_phases r h)
  have hnorm := normalize_incomplete r hne
  refine ⟨r.missingMandatory, ?_, ?_, ?_, ?_, ?_⟩
  · simp [runPipeline, hnorm]
  · exact fun hc => missingMandatory_of_no_components r hc
  · exact fun hp => missingMandatory_of_no_phases r hp
  · simp [runPipeline, hnorm]
  · simp [runPipeline, hnorm]

/-- Witness for C5: the demo raw request with an empty component list. -/
theorem pipeline_rejects_empty_components_or_phases_witness :
    ∃ fields,
      (runPipeline demoCatalog demoBindings [] ⟨3⟩ (true, true, true)
        demoRawEmpty demoLedger).1 = .error (.incompleteSpec fields) ∧
      (demoRawEmpty.components.getD [] = [] → "components" ∈ fields) ∧
      (demoRawEmpty.phases.getD [] = [] → "phases" ∈ fields) ∧
      (runPipeline demoCatalog demoBindings [] ⟨3⟩ (true, true, true)
        demoRawEmpty demoLedger).2 = [.normalization] ∧
      Stage.coverageGate ∉ (runPipeline demoCatalog demoBindings [] ⟨3⟩
        (true, true, true) demoRawEmpty demoLedger).2 :=
  pipeline_rejects_empty_components_or_phases demoCatalog demoBindings [] ⟨3⟩
    (true, true, true) demoRawEmpty demoLedger (Or.inl (by simp [demoRawEmpty]))

/-! ## C7 -/

/-- C7: an otherwise complete request whose equilibrium pairs or EOS map
reference an undeclared phase fails normalization with
`InvalidReferenceError` naming the dangling phase, and the run aborts
immediately: the trace stops at normalization and no downstream stage
runs. -/
theorem pipeline_rejects_dangling_phase_refs
    (propCat : List CatalogEntry) (bindings : List MethodBinding)
    (collab : List (String × ParameterRecord)) (cfg : OrchConfig)
    (checksOk : Bool × Bool × Bool) (r : RawRequest) (l : Ledger) (pid : String)
    (hcomplete : r.missingMandatory = [])
    (href : pid ∈ pairRefs ((r.equilibrium.getD
        { required := false, pairs := [], form := .fugacity }).pairs) ∨
      pid ∈ r.eosByPhase.map (·.1))
    (hundecl : phaseDeclared (r.phases.getD []) pid = false) :
    ∃ ids, pid ∈ ids ∧
      (runPipeline propCat bindings collab cfg checksOk r l).1 =
        .error (.invalidReference ids) ∧
      (runPipeline propCat bindings collab cfg checksOk r l).2 =
        [.normalization] ∧
      Stage.coverageGate ∉ (runPipeline propCat bindings collab cfg checksOk r l).2 := by
  set eqd := r.equilibrium.getD { required := false, pairs := [], form := .fugacity } with heq
  have hmem : pid ∈ danglingRefs (r.phases.getD []) eqd r.eosByPhase := by
    simp only [danglingRefs, List.mem_append, List.mem_filter, hundecl,
      Bool.not_false, and_true]
    exact href
  have hne : danglingRefs (r.phases.getD []) eqd r.eosByPhase ≠ [] :=
    List.ne_nil_of_mem hmem
  have hnorm : normalize r =
      .error (.invalidReference (danglingRefs (r.phases.getD []) eqd r.eosByPhase)) := by
    simp [normalize, hcomplete, ← heq, hne]
  exact ⟨danglingRefs (r.phases.getD []) eqd r.eosByPhase, hmem,
    by simp [runPipeline, hnorm], by simp [runPipeline, hnorm],
    by simp [runPipeline, hnorm]⟩

/-- Witness for C7: the demo request whose VLE pair references the
undeclared phase `Sol`. -/
theorem pipeline_rejects_dangling_phase_refs_witness :
    ∃ ids, "Sol" ∈ ids ∧
      (runPipeline demoCatalog demoBindings [] ⟨3⟩ (true, true, true)
        demoRawDangling demoLedger).1 = .error (.invalidReference ids) ∧
      (runPipeline demoCatalog demoBindings [] ⟨3⟩ (true, true, true)
        demoRawDangling demoLedger).2 = [.normalization] ∧
      Stage.coverageGate ∉ (runPipeline demoCatalog demoBindings [] ⟨3⟩
        (true, true, true) demoRawDangling demoLedger).2 :=
  pipeline_rejects_dangling_phase_refs demoCatalog demoBindings [] ⟨3⟩
    (true, true, true) demoRawDangling demoLedger "Sol"
    (by decide) (Or.inl (by decide)) (by decide)

/-! ## C6 -/

/-- Membership in the ordered union of the profile base set and the
includes. -/
theorem mem_profile_union (cat : List CatalogEntry) (mode : CoverageMode)
    (inc : List String) (q : String) :
    q ∈ profileBase cat mode ++
        inc.filter (fun x => decide (x ∉ profileBase cat mode)) ↔
      (q ∈ profileBase cat mode ∨ q ∈ inc) := by
  simp only [List.mem_append, List.mem_filter, decide_eq_true_eq]
  tauto

/-- C6: `Resolve` returns exactly (profile base ∪ includes) minus excludes
minus applicability-unmet properties, and a property removed for an unmet
applicability precondition is exactly one recorded as a Decision. -/
theorem resolve_returns_exact_set_and_logs_removals
    (cat : List CatalogEntry) (s : Specification) (mode : CoverageMode)
    (inc exc : List String) (p : String) :
    (p ∈ (resolveProps cat s mode inc exc).1 ↔
      ((p ∈ profileBase cat mode ∨ p ∈ inc) ∧ p ∉ exc ∧
        (applicabilityOf cat p).met s = true)) ∧
    (applicabilityDecision p ∈ (resolveProps cat s mode inc exc).2 ↔
      ((p ∈ profileBase cat mode ∨ p ∈ inc) ∧ p ∉ exc ∧
        (applicabilityOf cat p).met s = false)) := by
  constructor
  · simp only [resolveProps, List.mem_filter, decide_eq_true_eq]
    rw [mem_profile_union]
    tauto
  · simp only [resolveProps, List.mem_map, List.mem_filter, decide_eq_true_eq,
      Bool.not_eq_true']
    constructor
    · rintro ⟨q, ⟨⟨hq1, hq2⟩, hq3⟩, hq4⟩
      have hqp : q = p := by
        simpa [applicabilityDecision, Decision.mk.injEq] using hq4
      subst hqp
      exact ⟨(mem_profile_union cat mode inc q).1 hq1, hq2, hq3⟩
    · rintro ⟨h1, h2, h3⟩
      exact ⟨p, ⟨⟨(mem_profile_union cat mode inc p).2 h1, h2⟩, h3⟩, rfl⟩

/-! ## Coverage-gate lemmas and C4 -/

/-- A probe-mode query never mutates the ledger. -/
theorem mapperProbe_ledger (bindings : List MethodBinding) (p : String)
    (l : Ledger) : (mapperProbe bindings p l).2 = l := by
  unfold mapperProbe
  cases h : selectBinding l bindings p <;> simp

/-- The gate's fold over the resolved properties threads the ledger
unchanged and appends one entry per property. -/
theorem gateFold (cat : List CatalogEntry) (bindings : List MethodBinding) :
    ∀ (ps : List String) (acc : List CoverageEntry) (l : Ledger),
      ps.foldl (fun acc p =>
        let st := mapperProbe bindings p acc.2
        (acc.1 ++ [{ propertyName := p
                     applicability := applicabilityOf cat p
                     status := st.1 }], st.2)) (acc, l)
      = (acc ++ ps.map (fun p =>
          { propertyName := p
            applicability := applicabilityOf cat p
            status := (mapperProbe bindings p l).1 }), l)
  | [], acc, l => by simp
  | p :: rest, acc, l => by
      simp only [List.foldl_cons, List.map_cons]
      rw [show (mapperProbe bindings p l).2 = l from mapperProbe_ledger bindings p l]
      rw [gateFold cat bindings rest]
      simp

/-- Canonical form of one CoverageGate run: one entry per resolved
property, each probed against the input ledger, which is returned
unchanged. -/
theorem coverageGateRun_eq (cat : List CatalogEntry)
    (bindings : List MethodBinding) (s : Specification) (inc exc : List String)
    (l : Ledger) :
    coverageGateRun cat bindings s inc exc l =
      ((gateResolved cat s inc exc).map (fun p =>
        { propertyName := p
          applicability := applicabilityOf cat p
          status := (mapperProbe bindings p l).1 }), l) := by
  unfold coverageGateRun
  rw [gateFold cat bindings]
  simp

/-- C4: the CoverageGate is side-effect-free and idempotent: one run leaves
the ProvenanceLedger unchanged (its probe-mode mapper queries included),
and a second run on the resulting state reproduces the identical coverage
table and ledger bit for bit. -/
theorem coverage_gate_idempotent (cat : List CatalogEntry)
    (bindings : List MethodBinding) (s : Specification) (inc exc : List String)
    (l : Ledger) :
    (coverageGateRun cat bindings s inc exc l).2 = l ∧
    coverageGateRun cat bindings s inc exc
      ((coverageGateRun cat bindings s inc exc l).2) =
      coverageGateRun cat bindings s inc exc l := by
  have h := coverageGateRun_eq cat bindings s inc exc l
  refine ⟨by rw [h], ?_⟩
  simp [h]

/-! ## Orchestrator lemmas and C1 -/

/-- The property names of a gate run's table are exactly the gate's
resolved set. -/
theorem coverageGateRun_names (cat : List CatalogEntry)
    (bindings : List MethodBinding) (s : Specification) (inc exc : List String)
    (l : Ledger) :
    (coverageGateRun cat bindings s inc exc l).1.map (·.propertyName) =
      gateResolved cat s inc exc := by
  rw [coverageGateRun_eq]
  simp [List.map_map, Function.comp_def]

/-- When equilibrium is required, every equilibrium-tagged catalog property
is in the gate's resolved set, whatever the mode and overrides. -/
theorem equilibriumTagged_mem_gateResolved (cat : List CatalogEntry)
    (s : Specification) (inc exc : List String) (e : CatalogEntry)
    (hreq : s.equilibrium.required = true) (he : e ∈ cat)
    (happ : e.applicability = .equilibriumRequired) :
    e.name ∈ gateResolved cat s inc exc := by
  have htag : e.name ∈ equilibriumTagged cat := by
    simp only [equilibriumTagged, List.mem_map, List.mem_filter]
    exact ⟨e, ⟨he, by simp [happ]⟩, rfl⟩
  unfold gateResolved
  rw [hreq]
  simp only [if_true, List.mem_append, List.mem_filter, decide_eq_true_eq]
  by_cases hin : e.name ∈ (resolveProps cat s s.coverageMode inc exc).1
  · exact Or.inl hin
  · exact Or.inr ⟨htag, hin⟩

/-- A repair iteration changes only the ledger. -/
theorem repairStep_fields (env : ProbeEnv) :
    (repairStep env).spec = env.spec ∧
    (repairStep env).propCat = env.propCat ∧
    (repairStep env).bindings = env.bindings ∧
    (repairStep env).deferrals = env.deferrals := by
  simp [repairStep]

/-- The repair loop preserves the specification and the deferral list. -/
theorem probeLoop_preserves (fuel : Nat) :
    ∀ (env : ProbeEnv) (used : Nat),
      (probeLoop env fuel used).2.1.spec = env.spec ∧
      (probeLoop env fuel used).2.1.deferrals = env.deferrals := by
  induction fuel with
  | zero =>
      intro env used
      by_cases h1 : failingChecks env = []
      · simp [probeLoop, h1]
      · by_cases h2 : (failingChecks env).all CheckName.autoRepairable = true <;>
          simp [probeLoop, h1, h2]
  | succ n ih =>
      intro env used
      by_cases h1 : failingChecks env = []
      · simp [probeLoop, h1]
      · by_cases h2 : (failingChecks env).all CheckName.autoRepairable = true
        · have := ih (repairStep env) (used + 1)
          simpa [probeLoop, h1, h2, repairStep] using this
        · simp [probeLoop, h1, h2]

/-- Reaching `Ready` means the final environment passes every checklist
entry. -/
theorem probeLoop_ready_checks (fuel : Nat) :
    ∀ (env : ProbeEnv) (used : Nat) (envF : ProbeEnv) (u : Nat),
      probeLoop env fuel used = (.ready, envF, u) →
      failingChecks envF = [] := by
  induction fuel with
  | zero =>
      intro env used envF u h
      by_cases h1 : failingChecks env = []
      · simp only [probeLoop, h1, if_true] at h
        obtain ⟨henv, -⟩ := (Prod.mk.injEq ..).mp ((Prod.mk.injEq ..).mp h).2
        exact henv ▸ h1
      · by_cases h2 : (failingChecks env).all CheckName.autoRepairable = true <;>
          simp [probeLoop, h1, h2] at h
  | succ n ih =>
      intro env used envF u h
      by_cases h1 : failingChecks env = []
      · simp only [probeLoop, h1, if_true] at h
        obtain ⟨henv, -⟩ := (Prod.mk.injEq ..).mp ((Prod.mk.injEq ..).mp h).2
        exact henv ▸ h1
      · by_cases h2 : (failingChecks env).all CheckName.autoRepairable = true
        · rw [show probeLoop env (n + 1) used =
              probeLoop (repairStep env) n (used + 1) by
            simp [probeLoop, h1, h2]] at h
          exact ih (repairStep env) (used + 1) envF u h
        · simp [probeLoop, h1, h2] at h

/-- An environment passing every checklist entry passes each individual
check. -/
theorem failingChecks_nil_runCheck (env : ProbeEnv)
    (h : failingChecks env = []) (c : CheckName) :
    runCheck env c = true := by
  have hmem := List.filter_eq_nil_iff.mp h
  have hc : c ∈ allChecks := by cases c <;> simp [allChecks]
  simpa using hmem c hc

/-- A passing gate verdict leaves no equilibrium-required entry missing
when equilibrium is required. -/
theorem gatePass_no_eq_missing (s : Specification) (deferrals : List String)
    (table : List CoverageEntry) (hreq : s.equilibrium.required = true)
    (hpass : gatePass s deferrals table = true) :
    ∀ e ∈ table, e.applicability = .equilibriumRequired →
      e.status ≠ .missing := by
  intro e he happ
  have h0 := hpass
  unfold gatePass at h0
  rw [Bool.and_eq_true] at h0
  have h1 := h0.1
  rw [List.all_eq_true] at h1
  have h2 := h1 e he
  have hm : e.mandatory s deferrals = true := by
    simp [CoverageEntry.mandatory, hreq, happ]
  simpa [hm] using h2

/-- C1: with `Equilibrium.required`, (i) every `equilibrium_required`-tagged
property is forced into the gate's coverage table regardless of mode and
overrides, (ii) attempting to defer such a property raises
`EquilibriumCoverageViolation`, and (iii) the orchestrator reaches `Ready`
only when no equilibrium-required coverage entry is `missing`. -/
theorem equilibrium_required_forced_and_nondeferrable :
    (∀ (cat : List CatalogEntry) (bindings : List MethodBinding)
        (s : Specification) (inc exc : List String) (l : Ledger)
        (e : CatalogEntry), s.equilibrium.required = true → e ∈ cat →
        e.applicability = .equilibriumRequired →
        e.name ∈ (coverageGateRun cat bindings s inc exc l).1.map
          (·.propertyName)) ∧
    (∀ (cat : List CatalogEntry) (s : Specification) (p : String)
        (ds : List String), s.equilibrium.required = true →
        applicabilityOf cat p = .equilibriumRequired →
        deferProperty cat s p ds =
          .error (.equilibriumCoverageViolation p)) ∧
    (∀ (cfg : OrchConfig) (env envF : ProbeEnv) (used : Nat),
        env.spec.equilibrium.required = true →
        orchestrate cfg env = (.ready, envF, used) →
        ∀ e ∈ envTable envF, e.applicability = .equilibriumRequired →
          e.status ≠ .missing) := by
  refine ⟨?_, ?_, ?_⟩
  · intro cat bindings s inc exc l e hreq he happ
    rw [coverageGateRun_names]
    exact equilibriumTagged_mem_gateResolved cat s inc exc e hreq he happ
  · intro cat s p ds hreq happ
    simp [deferProperty, hreq, happ]
  · intro cfg env envF used hreq horch
    have hnil : failingChecks envF = [] :=
      probeLoop_ready_checks cfg.maxRepairIterations env 0 envF used horch
    have hcheck := failingChecks_nil_runCheck envF hnil .parameterCompleteness
    have hspecF : envF.spec = env.spec := by
      have hp := (probeLoop_preserves cfg.maxRepairIterations env 0).1
      rw [show (probeLoop env cfg.maxRepairIterations 0).2.1 = envF by
        rw [show probeLoop env cfg.maxRepairIterations 0 =
          (.ready, envF, used) from horch]] at hp
      exact hp
    have hreqF : envF.spec.equilibrium.required = true := by rw [hspecF]; exact hreq
    exact gatePass_no_eq_missing envF.spec envF.deferrals (envTable envF)
      hreqF hcheck

/-- Witness for C1 at the demo fixture: `fug_phase_comp` is forced into the
table even when excluded, deferring it errors, and the demo run reaches
`Ready` with it covered. -/
theorem equilibrium_required_forced_and_nondeferrable_witness :
    "fug_phase_comp" ∈ (coverageGateRun demoCatalog demoBindings demoSpec []
      ["fug_phase_comp"] demoLedger).1.map (·.propertyName) ∧
    deferProperty demoCatalog demoSpec "fug_phase_comp" [] =
      .error (.equilibriumCoverageViolation "fug_phase_comp") ∧
    (∀ e ∈ envTable demoEnv, e.applicability = .equilibriumRequired →
      e.status ≠ .missing) :=
  ⟨equilibrium_required_forced_and_nondeferrable.1 demoCatalog demoBindings
      demoSpec [] ["fug_phase_comp"] demoLedger
      { name := "fug_phase_comp", applicability := .equilibriumRequired,
        inMinimum := false, inComprehensive := true }
      rfl (by simp [demoCatalog]) rfl,
   equilibrium_required_forced_and_nondeferrable.2.1 demoCatalog demoSpec
      "fug_phase_comp" [] rfl (by simp [applicabilityOf, catalogLookup, demoCatalog]),
   equilibrium_required_forced_and_nondeferrable.2.2 ⟨3⟩ demoEnv demoEnv 0
      rfl (by decide)⟩

/-! ## Equilibrium-form lemmas and C2 -/

/-- A binding in a successful equilibrium-form pass comes from its own
phase's selection. -/
theorem formsFor_mem (s : Specification)
    (forced : List (String × EquilibriumForm)) :
    ∀ (ids : List String) (l : List (String × EquilibriumForm))
      (pid : String) (f : EquilibriumForm),
      formsFor s forced ids = .ok l → (pid, f) ∈ l →
      pid ∈ ids ∧ mapEquilibriumForm s forced pid = .ok f := by
  intro ids
  induction ids with
  | nil =>
      intro l pid f h hmem
      simp only [formsFor] at h
      cases h
      simp at hmem
  | cons q rest ih =>
      intro l pid f h hmem
      simp only [formsFor] at h
      cases hq : mapEquilibriumForm s forced q with
      | error e => rw [hq] at h; cases h
      | ok fq =>
          rw [hq] at h
          cases hr : formsFor s forced rest with
          | error e => rw [hr] at h; cases h
          | ok lr =>
              rw [hr] at h
              cases h
              rcases List.mem_cons.mp hmem with heq | hmem'
              · obtain ⟨h1, h2⟩ : pid = q ∧ f = fq := by simpa using heq
                subst h1; subst h2
                exact ⟨List.mem_cons_self _ _, hq⟩
              · obtain ⟨h1, h2⟩ := ih lr pid f hr hmem'
                exact ⟨List.mem_cons_of_mem q h1, h2⟩

/-- If any listed phase's selection errors, the whole equilibrium-form pass
produces no binding list. -/
theorem formsFor_error (s : Specification)
    (forced : List (String × EquilibriumForm)) :
    ∀ (ids : List String) (pid : String) (err : SpecError),
      pid ∈ ids → mapEquilibriumForm s forced pid = .error err →
      ∀ l, formsFor s forced ids ≠ .ok l := by
  intro ids
  induction ids with
  | nil => intro pid err hmem; simp at hmem
  | cons q rest ih =>
      intro pid err hmem herr l h
      simp only [formsFor] at h
      rcases List.mem_cons.mp hmem with heq | hmem'
      · subst heq; rw [herr] at h; cases h
      · cases hq : mapEquilibriumForm s forced q with
        | error e => rw [hq] at h; cases h
        | ok fq =>
            rw [hq] at h
            cases hr : formsFor s forced rest with
            | error e => rw [hr] at h; cases h
            | ok lr => exact ih pid err hmem' herr lr hr

/-- C2: for a phase with a cubic-family EOS taking part in required phase
equilibrium, the mapper only ever binds the `log_fugacity` form; forcing
the `fugacity` form for such a phase raises
`IncompatibleEquilibriumConfig` and no binding list is produced. -/
theorem cubic_phase_requires_log_fugacity
    (s : Specification) (forced : List (String × EquilibriumForm))
    (pid : String) (eos : EosKind)
    (hreq : s.equilibrium.required = true)
    (hmem : pid ∈ equilibriumPhaseIds s)
    (heos : (s.eosByPhase.find? fun e => decide (e.1 = pid)) = some (pid, eos))
    (hfam : eos.family = .cubicFamily) :
    (∀ (l : List (String × EquilibriumForm)) (f : EquilibriumForm),
      mapperEquilibriumForms s forced = .ok l → (pid, f) ∈ l →
      f = .log_fugacity) ∧
    (selectEquilibriumForm pid eos (some .fugacity) =
      .error (.incompatibleEquilibriumConfig pid .fugacity)) ∧
    (lookupForced forced pid = some .fugacity →
      ∀ l, mapperEquilibriumForms s forced ≠ .ok l) := by
  refine ⟨?_, ?_, ?_⟩
  · intro l f hok hin
    rw [show mapperEquilibriumForms s forced =
        formsFor s forced (equilibriumPhaseIds s) by
      simp [mapperEquilibriumForms, hreq]] at hok
    obtain ⟨-, hsel⟩ := formsFor_mem s forced (equilibriumPhaseIds s) l pid f hok hin
    rw [mapEquilibriumForm, heos] at hsel
    cases hlf : lookupForced forced pid with
    | none =>
        rw [hlf] at hsel
        simp only [selectEquilibriumForm, hfam] at hsel
        cases hsel
        rfl
    | some g =>
        rw [hlf] at hsel
        cases g with
        | fugacity => simp [selectEquilibriumForm, hfam, formCompatible] at hsel
        | log_fugacity =>
            simp only [selectEquilibriumForm, hfam, formCompatible, if_true] at hsel
            cases hsel
            rfl
  · simp [selectEquilibriumForm, hfam, formCompatible]
  · intro hforced l
    have herr : mapEquilibriumForm s forced pid =
        .error (.incompatibleEquilibriumConfig pid .fugacity) := by
      rw [mapEquilibriumForm, heos, hforced]
      simp [selectEquilibriumForm, hfam, formCompatible]
    rw [show mapperEquilibriumForms s forced =
        formsFor s forced (equilibriumPhaseIds s) by
      simp [mapperEquilibriumForms, hreq]]
    exact formsFor_error s forced (equilibriumPhaseIds s) pid
      (.incompatibleEquilibriumConfig pid .fugacity) hmem herr l

/-- Witness for C2 at the demo fixture: the vapor phase runs PR, so forcing
`fugacity` is rejected and any produced binding for it is `log_fugacity`. -/
theorem cubic_phase_requires_log_fugacity_witness :
    (∀ (l : List (String × EquilibriumForm)) (f : EquilibriumForm),
      mapperEquilibriumForms demoSpec [("Vap", EquilibriumForm.fugacity)] = .ok l →
      ("Vap", f) ∈ l → f = .log_fugacity) ∧
    (selectEquilibriumForm "Vap" .pengRobinson (some .fugacity) =
      .error (.incompatibleEquilibriumConfig "Vap" .fugacity)) ∧
    (lookupForced [("Vap", EquilibriumForm.fugacity)] "Vap" = some .fugacity →
      ∀ l, mapperEquilibriumForms demoSpec [("Vap", EquilibriumForm.fugacity)] ≠ .ok l) :=
  cubic_phase_requires_log_fugacity demoSpec [("Vap", EquilibriumForm.fugacity)]
    "Vap" .pengRobinson rfl (by decide) (by decide) rfl

/-! ## C9 -/

/-- C9: the mapper never fabricates a parameter value: every record it
inserts for a missing key is the literal placeholder (`confidence=low`,
`source="TODO"`, no value), every such placeholder is listed in the
delivery report, and the repair loop only ever appends collaborator
results or literal placeholders to the ledger. -/
theorem mapper_never_fabricates (l : Ledger) (rows : List CompletenessRow)
    (ds : List Decision) (env : ProbeEnv) :
    (∀ r ∈ (insertPlaceholders l rows).2,
      r.confidence = .low ∧ r.source = "TODO" ∧ r.value = none) ∧
    (∀ r ∈ (insertPlaceholders l rows).2, r.confidence = .low →
      r ∈ (deliveryReport (insertPlaceholders l rows).2 ds).placeholders) ∧
    (∀ r ∈ (repairStep env).ledger,
      r ∈ env.ledger ∨ (∃ k, lookupCollab env.collab k = some r) ∨
        ∃ k, r = placeholderRecord k) := by
  refine ⟨?_, ?_, ?_⟩
  · intro r hr
    simp only [insertPlaceholders, List.mem_map] at hr
    obtain ⟨k, -, rfl⟩ := hr
    exact ⟨rfl, rfl, rfl⟩
  · intro r hr hlow
    simp only [deliveryReport, List.mem_filter]
    exact ⟨hr, by simp [hlow]⟩
  · intro r hr
    simp only [repairStep, List.mem_append, List.mem_map] at hr
    rcases hr with hold | ⟨k, -, hk⟩
    · exact Or.inl hold
    · cases hc : lookupCollab env.collab k with
      | some r0 =>
          rw [hc] at hk
          simp only [] at hk
          exact Or.inr (Or.inl ⟨k, by rw [hc, hk]⟩)
      | none =>
          rw [hc] at hk
          simp only [] at hk
          exact Or.inr (Or.inr ⟨k, hk.symm⟩)

/-- Witness for C9: the placeholder inserted for the missing key `kappa`
is the literal TODO record and appears in the delivery report. -/
theorem mapper_never_fabricates_witness :
    ((placeholderRecord "kappa").confidence = .low ∧
      (placeholderRecord "kappa").source = "TODO" ∧
      (placeholderRecord "kappa").value = none) ∧
    placeholderRecord "kappa" ∈
      (deliveryReport (insertPlaceholders demoLedger
        [⟨"fug_phase_comp", "CubicComplementarityVLE", [], ["kappa"]⟩]).2
        []).placeholders :=
  ⟨(mapper_never_fabricates demoLedger
      [⟨"fug_phase_comp", "CubicComplementarityVLE", [], ["kappa"]⟩] [] demoEnv).1
      (placeholderRecord "kappa") (by decide),
   (mapper_never_fabricates demoLedger
      [⟨"fug_phase_comp", "CubicComplementarityVLE", [], ["kappa"]⟩] [] demoEnv).2.1
      (placeholderRecord "kappa") (by decide) rfl⟩

/-! ## C3 -/

/-- C3: the ApproachSelector has exactly two possible outcomes and follows
the first-match-wins rule order: an explicit override with no hard
incompatibility is honored (with risk notes exactly when it conflicts with
the recommendation); otherwise the rule-2 condition — a resolved property
without a Generic-compatible method, a non-standard state formulation, or
a required custom correlation — forces `ClassBased`, and `Generic` is the
default. -/
theorem approach_selection_rule_order (ctx : SelectorContext) :
    ((selectApproach ctx).1 = .generic ∨ (selectApproach ctx).1 = .classBased) ∧
    (∀ o, ctx.override = some o → ctx.overrideHardIncompatible = false →
      (selectApproach ctx).1 = o ∧
      ((selectApproach ctx).2.riskNotes = [] ↔ o = recommendedApproach ctx)) ∧
    ((ctx.override = none ∨ ctx.overrideHardIncompatible = true) →
      (selectApproach ctx).1 =
        (if classBasedNeeded ctx then .classBased else .generic)) ∧
    (classBasedNeeded ctx = true ↔
      ((∃ p ∈ ctx.resolved, lacksGenericMethod ctx.bindings p = true) ∨
        ctx.spec.stateDefinition.isStandard = false ∨
        ctx.customCorrelationRequired = true)) := by
  refine ⟨?_, ?_, ?_, ?_⟩
  · cases h : (selectApproach ctx).1
    · exact Or.inl rfl
    · exact Or.inr rfl
  · intro o ho hh
    constructor
    · simp [selectApproach, ho, hh]
    · by_cases hr : o = recommendedApproach ctx <;>
        simp [selectApproach, ho, hh, hr]
  · intro h
    rcases h with h | h
    · simp [selectApproach, h, recommendedApproach]
    · cases ho : ctx.override with
      | none => simp [selectApproach, ho, recommendedApproach]
      | some a => simp [selectApproach, ho, h, recommendedApproach]
  · simp only [classBasedNeeded, Bool.or_eq_true, List.any_eq_true,
      Bool.not_eq_true']
    exact or_assoc

/-- Witness for C3: the demo override context honors the forced class-based
choice and flags the conflict with the Generic recommendation. -/
theorem approach_selection_rule_order_witness :
    (selectApproach demoOverrideCtx).1 = .classBased ∧
    ((selectApproach demoOverrideCtx).2.riskNotes = [] ↔
      Approach.classBased = recommendedApproach demoOverrideCtx) :=
  (approach_selection_rule_order demoOverrideCtx).2.1 .classBased rfl rfl

/-! ## C8 -/

/-- Unfolding equation of the repair loop at zero remaining budget. -/
theorem probeLoop_zero (env : ProbeEnv) (used : Nat) :
    probeLoop env 0 used =
      if failingChecks env = [] then (.ready, env, used)
      else if (failingChecks env).all CheckName.autoRepairable then
        (.blocked (.repairBudgetExhausted
          ((failingChecks env).map CheckName.describe)), env, used)
      else (.blocked (terminalReason (failingChecks env)), env, used) := rfl

/-- Unfolding equation of the repair loop with remaining budget. -/
theorem probeLoop_succ (env : ProbeEnv) (fuel used : Nat) :
    probeLoop env (fuel + 1) used =
      if failingChecks env = [] then (.ready, env, used)
      else if (failingChecks env).all CheckName.autoRepairable then
        probeLoop (repairStep env) fuel (used + 1)
      else (.blocked (terminalReason (failingChecks env)), env, used) := rfl

/-- The loop performs at most `fuel` repair iterations. -/
theorem probeLoop_used_le (fuel : Nat) :
    ∀ (env : ProbeEnv) (used : Nat),
      (probeLoop env fuel used).2.2 ≤ used + fuel := by
  induction fuel with
  | zero =>
      intro env used
      rw [probeLoop_zero]
      by_cases h1 : failingChecks env = []
      · simp [h1]
      · by_cases h2 : (failingChecks env).all CheckName.autoRepairable <;>
          simp [h1, h2]
  | succ n ih =>
      intro env used
      rw [probeLoop_succ]
      by_cases h1 : failingChecks env = []
      · simp [h1]
      · by_cases h2 : (failingChecks env).all CheckName.autoRepairable
        · have := ih (repairStep env) (used + 1)
          simp [h1, h2]
          omega
        · simp [h1, h2]

/-- The loop only returns terminal states. -/
theorem probeLoop_terminal (fuel : Nat) :
    ∀ (env : ProbeEnv) (used : Nat),
      (probeLoop env fuel used).1 = .ready ∨
        ∃ r, (probeLoop env fuel used).1 = .blocked r := by
  induction fuel with
  | zero =>
      intro env used
      rw [probeLoop_zero]
      by_cases h1 : failingChecks env = []
      · simp [h1]
      · by_cases h2 : (failingChecks env).all CheckName.autoRepairable <;>
          simp [h1, h2]
  | succ n ih =>
      intro env used
      rw [probeLoop_succ]
      by_cases h1 : failingChecks env = []
      · simp [h1]
      · by_cases h2 : (failingChecks env).all CheckName.autoRepairable
        · simpa [h1, h2] using ih (repairStep env) (used + 1)
        · simp [h1, h2]

/-- A terminal (non-repairable) failure never reports budget exhaustion. -/
theorem terminalReason_not_budget (failing : List CheckName)
    (hne : (failing.all CheckName.autoRepairable) = false) (us : List String) :
    terminalReason failing ≠ .repairBudgetExhausted us := by
  unfold terminalReason
  cases hf : failing.find? (fun c => !c.autoRepairable) with
  | none =>
      exfalso
      have hall : ∀ c ∈ failing, ¬((!c.autoRepairable) = true) :=
        List.find?_eq_none.mp hf
      have : failing.all CheckName.autoRepairable = true := by
        rw [List.all_eq_true]
        intro c hc
        have := hall c hc
        simpa using this
      rw [this] at hne
      cases hne
  | some c =>
      have hc := List.find?_some hf
      cases c <;> simp [CheckName.autoRepairable] at hc <;>
        simp [CheckName.terminalReason]

/-- A budget-exhaustion verdict enumerates the (non-empty) list of still
failing checklist entries of the final environment. -/
theorem probeLoop_budget (fuel : Nat) :
    ∀ (env : ProbeEnv) (used : Nat) (us : List String),
      (probeLoop env fuel used).1 = .blocked (.repairBudgetExhausted us) →
      us = (failingChecks (probeLoop env fuel used).2.1).map
          CheckName.describe ∧ us ≠ [] := by
  induction fuel with
  | zero =>
      intro env used us h
      rw [probeLoop_zero] at h ⊢
      by_cases h1 : failingChecks env = []
      · simp [h1] at h
      · by_cases h2 : (failingChecks env).all CheckName.autoRepairable
        · simp only [h1, h2, if_false, if_true] at h ⊢
          simp only [OrchState.blocked.injEq,
            BlockReason.repairBudgetExhausted.injEq] at h
          refine ⟨by simp [← h], ?_⟩
          rw [← h]
          simpa using h1
        · simp [h1, h2] at h
          exact absurd h (terminalReason_not_budget (failingChecks env)
            (by simpa using h2) us)
  | succ n ih =>
      intro env used us h
      rw [probeLoop_succ] at h ⊢
      by_cases h1 : failingChecks env = []
      · simp [h1] at h
      · by_cases h2 : (failingChecks env).all CheckName.autoRepairable
        · simp only [h1, h2, if_false, if_true] at h ⊢
          exact ih (repairStep env) (used + 1) us h
        · simp [h1, h2] at h
          exact absurd h (terminalReason_not_budget (failingChecks env)
            (by simpa using h2) us)

/-- C8: the orchestrator's repair loop performs at most the configured
maximum number of repair iterations and always ends in a terminal state;
exceeding the bound yields `Blocked` with the specific reason
`RepairBudgetExhausted` enumerating the still-unresolved checklist
entries — never a silent retry and never a generic failure. -/
theorem repair_loop_bounded (cfg : OrchConfig) (env : ProbeEnv) :
    (orchestrate cfg env).2.2 ≤ cfg.maxRepairIterations ∧
    ((orchestrate cfg env).1 = .ready ∨
      ∃ r, (orchestrate cfg env).1 = .blocked r) ∧
    (∀ us, (orchestrate cfg env).1 = .blocked (.repairBudgetExhausted us) →
      us = (failingChecks (orchestrate cfg env).2.1).map CheckName.describe ∧
        us ≠ []) := by
  refine ⟨?_, ?_, ?_⟩
  · simpa [orchestrate] using
      probeLoop_used_le cfg.maxRepairIterations env 0
  · simpa [orchestrate] using
      probeLoop_terminal cfg.maxRepairIterations env 0
  · intro us h
    simpa [orchestrate] using
      probeLoop_budget cfg.maxRepairIterations env 0 us (by simpa [orchestrate] using h)

/-- Witness for C8: with the unresolvable parameter gap and a budget of
two repair iterations, the run blocks with `RepairBudgetExhausted` naming
the parameter-completeness entry, after exactly the budgeted iterations. -/
theorem repair_loop_bounded_witness :
    (orchestrate ⟨2⟩ demoGapEnv).2.2 ≤ 2 ∧
    (["parameter_completeness"] =
      (failingChecks (orchestrate ⟨2⟩ demoGapEnv).2.1).map
        CheckName.describe ∧
      (["parameter_completeness"] : List String) ≠ []) :=
  ⟨(repair_loop_bounded ⟨2⟩ demoGapEnv).1,
   (repair_loop_bounded ⟨2⟩ demoGapEnv).2.2 ["parameter_completeness"]
     (by decide)⟩

/-! ## C10 -/

/-- Every generated test satisfies the decidable marker policy. -/
theorem generateTests_all_policy (s : Specification) (b : Bool) :
    (generateTests s b).all markerPolicyOk = true := by
  by_cases h1 : s.coverageMode = .comprehensive <;>
  by_cases h2 : s.equilibrium.required = true <;>
  by_cases h3 : s.transportIncluded = true <;>
  cases b <;>
  simp [generateTests, h1, h2, h3, markerPolicyOk, mkSmokeTest, smokeMarker]

/-- C10: every test emitted by the validation/test-generation stage has
exactly one primary pytest marker from the fixed four-marker set, and
smoke tests default to `component` unless strictly unit-level and
solver-free. -/
theorem generated_tests_marker_policy (s : Specification) (b : Bool)
    (t : GeneratedTest) (ht : t ∈ generateTests s b) :
    t.markers.length = 1 ∧
    (∀ m ∈ t.markers, m = .unit ∨ m = .component ∨ m = .integration ∨
      m = .performance) ∧
    (t.kind = .smoke →
      t.markers = [if t.unitLevel && t.solverFree then PytestMarker.unit
                   else PytestMarker.component]) := by
  have hall := generateTests_all_policy s b
  rw [List.all_eq_true] at hall
  have hp := hall t ht
  unfold markerPolicyOk at hp
  rw [Bool.and_eq_true] at hp
  obtain ⟨hlen, hkind⟩ := hp
  refine ⟨by simpa using hlen, ?_, ?_⟩
  · intro m hm
    cases m
    · exact Or.inl rfl
    · exact Or.inr (Or.inl rfl)
    · exact Or.inr (Or.inr (Or.inl rfl))
    · exact Or.inr (Or.inr (Or.inr rfl))
  · intro hk
    rw [hk] at hkind
    simp only [if_true, decide_eq_true_eq, reduceIte] at hkind
    simpa [smokeMarker] using hkind

/-- Witness for C10: the generated solve test is a smoke test using a
solver, so it carries exactly the `component` marker. -/
theorem generated_tests_marker_policy_witness :
    (mkSmokeTest "test_solve_termination" false false).markers.length = 1 ∧
    (∀ m ∈ (mkSmokeTest "test_solve_termination" false false).markers,
      m = .unit ∨ m = .component ∨ m = .integration ∨ m = .performance) ∧
    ((mkSmokeTest "test_solve_termination" false false).kind = .smoke →
      (mkSmokeTest "test_solve_termination" false false).markers =
        [if (mkSmokeTest "test_solve_termination" false false).unitLevel &&
            (mkSmokeTest "test_solve_termination" false false).solverFree
         then PytestMarker.unit else PytestMarker.component]) :=
  generated_tests_marker_policy demoSpec true
    (mkSmokeTest "test_solve_termination" false false) (by decide)

end PropPkg
